import Mathlib

/-!
# Verification of `calibration/feature_clipping.py`

A shallow embedding of the feature-clipping post-hoc calibrator:

* Python floats that can appear as metric values are embedded as `PyFloat`
  (NaN, -inf, finite rational, +inf); Python's strict `>` comparison,
  which is `false` whenever either side is NaN, is `pgt`.
* Clip-threshold values are only ever `float("inf")` or finite rationals
  `q/100`, so threshold-valued fields are embedded as `WithTop ℚ`
  (`⊤` = `float("inf")`).
* Tensors are embedded as `List ℚ`; `torch.clamp` acts elementwise.
* The external metric components (`ECELoss` from `metrics.metrics`, which
  is outside this file's source, and `torch.nn.CrossEntropyLoss`) and the
  wrapped model's classifier head are abstracted: with a fixed validation
  set, the per-candidate losses `after_clipping_nll` / `after_clipping_ece`
  are functions of the scan step index `q` alone (the threshold at step
  `q` is `q/100`), embedded as arguments `nll ece : ℕ → PyFloat`.
* The local lists `cs`, `eces`, `accs`, `nlls` in `set_feature_clip` are
  write-only diagnostics that are discarded when the method returns, and
  `self.feature_clip_bottom` is assigned `-inf` and never read; they do
  not influence any observable behaviour and are carried as the dead
  field `feature_clip_bottom` only.
-/

/-- A Python float as it occurs in the calibration code: NaN, -infinity,
a finite value (idealised as a rational), or +infinity. -/
inductive PyFloat where
  | nan : PyFloat
  | ninf : PyFloat
  | fin : ℚ → PyFloat
  | inf : PyFloat
deriving DecidableEq, Repr

/-- Python's strict `>` on floats: any comparison involving NaN is false;
`inf > x` for every non-NaN `x ≠ inf`; finite values compare as rationals. -/
def pgt : PyFloat → PyFloat → Bool
  | .nan, _ => false
  | _, .nan => false
  | .inf, .inf => false
  | .inf, _ => true
  | .fin _, .inf => false
  | .fin a, .fin b => b < a
  | .fin _, .ninf => true
  | .ninf, _ => false

/-- One element of `torch.clamp(features, min=-C, max=C)` where the
threshold `C` is `self.feature_clip : WithTop ℚ`.  With `C = inf` both
bounds are no-ops and the input passes through unchanged; with a finite
`C` torch applies the lower bound first and the upper bound second:
`min (max x (-C)) C`. -/
def clampElem (feature_clip : WithTop ℚ) (x : ℚ) : ℚ :=
  match feature_clip with
  | none => x
  | some c => min (max x (-c)) c

/-- `feature_clipping(self, features)`: elementwise
`torch.clamp(features, min=-self.feature_clip, max=self.feature_clip)`.
The method body is textually identical in `ModelWithFeatureClipping`
(lines 38-42), `FeatureClippingCalibrator` (lines 162-167) and
`FeatureClippingCalibrator2` (lines 230-235), so all three share this
embedding, with the instance field `self.feature_clip` passed explicitly. -/
def feature_clipping (feature_clip : WithTop ℚ) (features : List ℚ) : List ℚ :=
  features.map (clampElem feature_clip)

/-! ## The grid-search state of `set_feature_clip` (calibrator variants)

`FeatureClippingCalibrator.set_feature_clip` (lines 122-160) and
`FeatureClippingCalibrator2.set_feature_clip` (lines 188-228) have the
same body except for the scan length (`range(2000)` vs `range(4000)`)
and which tensor is clipped (features vs logits, both folded into the
abstract metric functions).  `ScanState` bundles the local accumulators
`nll_val`, `ece_val`, `C_opt_nll`, `C_opt_ece` together with the instance
fields `self.feature_clip` and `self.feature_clip_bottom` that the method
mutates. -/
structure ScanState where
  nll_val : PyFloat
  ece_val : PyFloat
  C_opt_nll : WithTop ℚ
  C_opt_ece : WithTop ℚ
  feature_clip : WithTop ℚ
  feature_clip_bottom : PyFloat
deriving DecidableEq, Repr

/-- The state right after lines 123-128 of `set_feature_clip`:
`nll_val = ece_val = float("inf")`, `C_opt_nll = C_opt_ece = float("inf")`,
`self.feature_clip = float("inf")`, `self.feature_clip_bottom = -inf`.
Identical in `FeatureClippingCalibrator` (lines 123-128) and
`FeatureClippingCalibrator2` (lines 189-194). -/
def initScanState : ScanState :=
  { nll_val := .inf
    ece_val := .inf
    C_opt_nll := ⊤
    C_opt_ece := ⊤
    feature_clip := ⊤
    feature_clip_bottom := .ninf }

/-- One iteration of the scan loop at step index `q` (lines 134-151 /
200-219): set `self.feature_clip = q/100`, evaluate the two losses on the
clipped validation data, and update each running best under Python's
strict `>` comparison. -/
def scanStep (nll ece : ℕ → PyFloat) (s : ScanState) (q : ℕ) : ScanState :=
  let s1 : ScanState := { s with feature_clip := some ((q : ℚ) / 100) }
  let n := nll q
  let e := ece q
  let s2 : ScanState :=
    if pgt s1.nll_val n then { s1 with C_opt_nll := s1.feature_clip, nll_val := n } else s1
  let s3 : ScanState :=
    if pgt s2.ece_val e then { s2 with C_opt_ece := s2.feature_clip, ece_val := e } else s2
  s3

/-- The whole `for q in range(steps):` loop, starting from the freshly
initialised accumulators. -/
def scanLoop (nll ece : ℕ → PyFloat) (steps : ℕ) : ScanState :=
  (List.range steps).foldl (scanStep nll ece) initScanState

/-- The entire `set_feature_clip` body: run the scan, then (lines 153-156
/ 221-224) set `self.feature_clip` from the chosen best if
`self.cross_validate` is `'ece'` or `'nll'`; any other string leaves
`self.feature_clip` at its last in-loop value.  Returns the final value
of `self.feature_clip`. -/
def scanSelect (cross_validate : String) (nll ece : ℕ → PyFloat) (steps : ℕ) : WithTop ℚ :=
  let s := scanLoop nll ece steps
  if cross_validate = "ece" then s.C_opt_ece
  else if cross_validate = "nll" then s.C_opt_nll
  else s.feature_clip

/-! ## The calibrator classes -/

/-- `FeatureClippingCalibrator` (lines 109-171): holds the criterion
string, the clip threshold, and a reference to the external model's
classifier head (`self.classifier = self.model.classifier`). -/
structure FeatureClippingCalibrator where
  cross_validate : String
  feature_clip : WithTop ℚ
  classifier : List ℚ → List ℚ

/-- `FeatureClippingCalibrator.__init__` (lines 110-117): stores the
criterion (default `'ece'`), sets `self.feature_clip = float("inf")` and
captures the model's classifier head. -/
def FeatureClippingCalibrator.init (model_classifier : List ℚ → List ℚ)
    (cross_validate : String) : FeatureClippingCalibrator :=
  { cross_validate := cross_validate, feature_clip := ⊤, classifier := model_classifier }

/-- `get_feature_clip` (lines 119-120). -/
def FeatureClippingCalibrator.get_feature_clip (c : FeatureClippingCalibrator) : WithTop ℚ :=
  c.feature_clip

/-- `FeatureClippingCalibrator.set_feature_clip` (lines 122-160): the
grid search with `range(2000)`; only `self.feature_clip` is durably
updated (the accumulators are locals). -/
def FeatureClippingCalibrator.set_feature_clip (c : FeatureClippingCalibrator)
    (nll ece : ℕ → PyFloat) : FeatureClippingCalibrator :=
  { c with feature_clip := scanSelect c.cross_validate nll ece 2000 }

/-- `FeatureClippingCalibrator.forward` (lines 170-171):
`self.classifier(self.feature_clipping(features))`. -/
def FeatureClippingCalibrator.forward (c : FeatureClippingCalibrator)
    (features : List ℚ) : List ℚ :=
  c.classifier (feature_clipping c.feature_clip features)

/-- `FeatureClippingCalibrator2` (lines 175-239): same shape, but its
head is always `torch.nn.Identity()` (line 183), so the constant head is
embedded as the definition `FeatureClippingCalibrator2.head` below
rather than a varying field. -/
structure FeatureClippingCalibrator2 where
  cross_validate : String
  feature_clip : WithTop ℚ

/-- `self.classifier = torch.nn.Identity()` (line 183): the identity map. -/
def FeatureClippingCalibrator2.head (x : List ℚ) : List ℚ := x

/-- `FeatureClippingCalibrator2.__init__` (lines 176-183). -/
def FeatureClippingCalibrator2.init (cross_validate : String) : FeatureClippingCalibrator2 :=
  { cross_validate := cross_validate, feature_clip := ⊤ }

/-- `get_feature_clip` (lines 185-186). -/
def FeatureClippingCalibrator2.get_feature_clip (c : FeatureClippingCalibrator2) : WithTop ℚ :=
  c.feature_clip

/-- `FeatureClippingCalibrator2.set_feature_clip` (lines 188-228): the
same grid search with `range(4000)`, the clamp applied to `logits_val`. -/
def FeatureClippingCalibrator2.set_feature_clip (c : FeatureClippingCalibrator2)
    (nll ece : ℕ → PyFloat) : FeatureClippingCalibrator2 :=
  { c with feature_clip := scanSelect c.cross_validate nll ece 4000 }

/-- `FeatureClippingCalibrator2.forward` (lines 238-239):
`self.classifier(self.feature_clipping(features))` with the identity head. -/
def FeatureClippingCalibrator2.forward (c : FeatureClippingCalibrator2)
    (features : List ℚ) : List ℚ :=
  FeatureClippingCalibrator2.head (feature_clipping c.feature_clip features)

/-! ## Variant A: `ModelWithFeatureClipping` -/

/-- `ModelWithFeatureClipping` (lines 12-106): wraps a live model; the
only calibration state is `self.feature_clip`. -/
structure ModelWithFeatureClipping where
  feature_clip : WithTop ℚ

/-- `ModelWithFeatureClipping.__init__` (lines 20-23):
`self.feature_clip = float("inf")`. -/
def ModelWithFeatureClipping.init : ModelWithFeatureClipping :=
  { feature_clip := ⊤ }

/-- The loop state of `ModelWithFeatureClipping.set_feature_clip`
(lines 77-94): the locals `nll_val`, `ece_val`, `C_opt_nll`, `C_opt_ece`
and `C`, plus the mutated instance field `self.feature_clip`. -/
structure MScanState where
  nll_val : PyFloat
  ece_val : PyFloat
  C_opt_nll : WithTop ℚ
  C_opt_ece : WithTop ℚ
  C : ℚ
  feature_clip : WithTop ℚ
deriving DecidableEq, Repr

/-- The state right after lines 77-81: `nll_val = ece_val = 10 ** 7`,
`C_opt_nll = C_opt_ece = float("inf")`, `C = 0.01`; `self.feature_clip`
still holds whatever value the instance had before the call. -/
def ModelWithFeatureClipping.initScan (fc0 : WithTop ℚ) : MScanState :=
  { nll_val := .fin (10 ^ 7)
    ece_val := .fin (10 ^ 7)
    C_opt_nll := ⊤
    C_opt_ece := ⊤
    C := 1 / 100
    feature_clip := fc0 }

/-- One iteration of variant A's loop body (lines 83-94): set
`self.feature_clip = C`, recompute both losses through the live
classifier on the clipped features (abstracted as functions of `C`),
update the running bests under strict `>`, then `C += 0.01`. -/
def modelScanStep (nllA eceA : ℚ → PyFloat) (s : MScanState) : MScanState :=
  let s1 : MScanState := { s with feature_clip := some s.C }
  let n := nllA s1.C
  let e := eceA s1.C
  let s2 : MScanState :=
    if pgt s1.nll_val n then { s1 with C_opt_nll := some s1.C, nll_val := n } else s1
  let s3 : MScanState :=
    if pgt s2.ece_val e then { s2 with C_opt_ece := some s2.C, ece_val := e } else s2
  { s3 with C := s3.C + 1 / 100 }

/-- `ModelWithFeatureClipping.set_feature_clip` (lines 48-102): the loop
runs `for _ in range(1)`, then lines 96-99 choose `C_opt_ece` when
`cross_validate == 'ece'` and `C_opt_nll` for every other string
(plain `else`, no `elif`). -/
def ModelWithFeatureClipping.set_feature_clip (m : ModelWithFeatureClipping)
    (cross_validate : String) (nllA eceA : ℚ → PyFloat) : ModelWithFeatureClipping :=
  let s := (List.range 1).foldl (fun s _ => modelScanStep nllA eceA s)
    (ModelWithFeatureClipping.initScan m.feature_clip)
  if cross_validate = "ece" then { feature_clip := s.C_opt_ece }
  else { feature_clip := s.C_opt_nll }

/-! ## First-minimum bookkeeping (specification side, for claim C1) -/

/-- The minimum of `e 0, …, e (k-1)` (with the convention
`minOver e 0 = e 0`, never used at `k = 0`). -/
def minOver (e : ℕ → ℚ) : ℕ → ℚ
  | 0 => e 0
  | k + 1 => min (minOver e k) (e k)

/-- The first index among `0, …, k-1` at which `e` attains
`minOver e k` (convention `firstArgmin e 0 = 0`). -/
def firstArgmin (e : ℕ → ℚ) : ℕ → ℕ
  | 0 => 0
  | k + 1 => if e k < minOver e k then k else firstArgmin e k

/-! ## Basic properties of the clipping transform -/

/-- Clamping once already lands in `[-c, c]`, so clamping again changes
nothing (for a non-negative finite threshold). -/
lemma clampElem_idem (c : ℚ) (hc : 0 ≤ c) (x : ℚ) :
    clampElem (some c) (clampElem (some c) x) = clampElem (some c) x := by
  simp only [clampElem]
  have hcc : -c ≤ c := neg_le_self hc
  have h1 : -c ≤ min (max x (-c)) c := le_min (le_max_right x (-c)) hcc
  have h2 : min (max x (-c)) c ≤ c := min_le_right _ _
  rw [max_eq_left h1, min_eq_left h2]

/-- C3: with the threshold field holding `float("inf")` the clipping
transform is the identity; in general `feature_clipping` is the pure
elementwise clamp `x ↦ min (max x (-C)) C`. -/
theorem feature_clipping_identity_at_inf :
    (∀ X : List ℚ, feature_clipping ⊤ X = X) ∧
    (∀ (C : WithTop ℚ) (X : List ℚ), feature_clipping C X = X.map (clampElem C)) ∧
    (∀ c x : ℚ, clampElem (some c) x = min (max x (-c)) c) := by
  refine ⟨fun X => ?_, fun C X => rfl, fun c x => rfl⟩
  rw [feature_clipping, show clampElem ⊤ = fun x => x from rfl, List.map_id']

/-- C4: applying the clip transform twice with the same non-negative
threshold equals applying it once. -/
theorem feature_clipping_idempotent (C : WithTop ℚ) (hC : 0 ≤ C) (X : List ℚ) :
    feature_clipping C (feature_clipping C X) = feature_clipping C X := by
  simp only [feature_clipping, List.map_map]
  apply List.map_congr_left
  intro a _
  cases C with
  | top => rfl
  | coe c =>
    have hc : (0 : ℚ) ≤ c := by exact_mod_cast hC
    exact clampElem_idem c hc a

/-- Witness for C4 at the concrete threshold `1` and tensor `[5, -7, 1/2]`. -/
theorem feature_clipping_idempotent_witness :
    (0 : WithTop ℚ) ≤ (some 1 : WithTop ℚ) ∧
      feature_clipping (some 1) (feature_clipping (some 1) [5, -7, 1/2]) =
        feature_clipping (some 1) [5, -7, 1/2] :=
  ⟨by decide, feature_clipping_idempotent (some 1) (by decide) [5, -7, 1/2]⟩

/-- C8: `forward` returns the classifier head applied to the clipped
input, and for `FeatureClippingCalibrator2` the head is the identity, so
`forward` is exactly the clamp; both are pure state readers. -/
theorem forward_is_head_of_clipped :
    (∀ (c : FeatureClippingCalibrator) (x : List ℚ),
        c.forward x = c.classifier (feature_clipping c.feature_clip x)) ∧
    (∀ (c : FeatureClippingCalibrator2) (x : List ℚ),
        c.forward x = feature_clipping c.feature_clip x) :=
  ⟨fun _ _ => rfl, fun _ _ => rfl⟩

/-- C5 counterexample: variant A (`ModelWithFeatureClipping`) starts its
scan with running-best NLL and ECE equal to `10 ** 7`, which is not
`float("inf")`. -/
theorem variantA_bests_start_at_ten_pow_seven :
    (ModelWithFeatureClipping.initScan ⊤).nll_val = PyFloat.fin (10 ^ 7) ∧
    (ModelWithFeatureClipping.initScan ⊤).ece_val = PyFloat.fin (10 ^ 7) ∧
    PyFloat.fin (10 ^ 7) ≠ PyFloat.inf := by
  refine ⟨rfl, rfl, ?_⟩
  decide

/-- C5 amended: the two calibrator variants initialise all four
accumulators to `float("inf")`, while variant A initialises the two
best-threshold trackers to `float("inf")` but the running-best NLL and
ECE to the finite sentinel `10 ** 7`. -/
theorem set_feature_clip_initialization :
    (initScanState.nll_val = PyFloat.inf ∧ initScanState.ece_val = PyFloat.inf ∧
      initScanState.C_opt_nll = ⊤ ∧ initScanState.C_opt_ece = ⊤) ∧
    (∀ fc0 : WithTop ℚ,
      (ModelWithFeatureClipping.initScan fc0).nll_val = PyFloat.fin (10 ^ 7) ∧
      (ModelWithFeatureClipping.initScan fc0).ece_val = PyFloat.fin (10 ^ 7) ∧
      (ModelWithFeatureClipping.initScan fc0).C_opt_nll = ⊤ ∧
      (ModelWithFeatureClipping.initScan fc0).C_opt_ece = ⊤) :=
  ⟨⟨rfl, rfl, rfl, rfl⟩, fun _ => ⟨rfl, rfl, rfl, rfl⟩⟩

/-! ## Lemmas about the scan loop -/

/-- In Python, `x > nan` is false for every float `x`. -/
lemma pgt_nan (x : PyFloat) : pgt x PyFloat.nan = false := by
  cases x <;> rfl

/-- Each loop iteration ends with `self.feature_clip = q/100`: the two
best-tracker updates never touch `feature_clip`. -/
lemma scanStep_feature_clip (nll ece : ℕ → PyFloat) (s : ScanState) (q : ℕ) :
    (scanStep nll ece s q).feature_clip = some ((q : ℚ) / 100) := by
  simp only [scanStep]
  split <;> split <;> rfl

/-- Unfolding one iteration off the back of the scan loop. -/
lemma scanLoop_succ (nll ece : ℕ → PyFloat) (k : ℕ) :
    scanLoop nll ece (k + 1) = scanStep nll ece (scanLoop nll ece k) k := by
  rw [scanLoop, scanLoop, List.range_succ, List.foldl_append, List.foldl_cons, List.foldl_nil]

/-- After a non-empty scan, `self.feature_clip` holds the last scanned
candidate, whatever the metric values were. -/
lemma scanLoop_feature_clip (nll ece : ℕ → PyFloat) (k : ℕ) :
    (scanLoop nll ece (k + 1)).feature_clip = some ((k : ℚ) / 100) := by
  rw [scanLoop_succ, scanStep_feature_clip]

/-- With NaN metric values neither best tracker is ever updated. -/
lemma scanStep_nan_preserves (nll ece : ℕ → PyFloat) (q : ℕ) (s : ScanState)
    (hn : nll q = PyFloat.nan) (he : ece q = PyFloat.nan) :
    (scanStep nll ece s q).C_opt_nll = s.C_opt_nll ∧
    (scanStep nll ece s q).C_opt_ece = s.C_opt_ece := by
  simp only [scanStep, hn, he, pgt_nan]
  exact ⟨rfl, rfl⟩

/-- Folding the loop over all-NaN metrics leaves both best trackers at
their initial values. -/
lemma scanFold_nan (nll ece : ℕ → PyFloat)
    (hn : ∀ q, nll q = PyFloat.nan) (he : ∀ q, ece q = PyFloat.nan) :
    ∀ (l : List ℕ) (s : ScanState),
      (l.foldl (scanStep nll ece) s).C_opt_nll = s.C_opt_nll ∧
      (l.foldl (scanStep nll ece) s).C_opt_ece = s.C_opt_ece := by
  intro l
  induction l with
  | nil => exact fun s => ⟨rfl, rfl⟩
  | cons q t ih =>
    intro s
    simp only [List.foldl_cons]
    obtain ⟨h1, h2⟩ := ih (scanStep nll ece s q)
    obtain ⟨g1, g2⟩ := scanStep_nan_preserves nll ece q s (hn q) (he q)
    exact ⟨h1.trans g1, h2.trans g2⟩

/-- `some (q/100)` is non-negative in `WithTop ℚ`. -/
lemma coe_div_hundred_nonneg (q : ℕ) : (0 : WithTop ℚ) ≤ some ((q : ℚ) / 100) := by
  rw [show (0 : WithTop ℚ) = ((0 : ℚ) : WithTop ℚ) from rfl]
  exact WithTop.coe_le_coe.mpr (by positivity)

/-- The scan fold preserves non-negativity of the three threshold-valued
fields. -/
lemma scanFold_nonneg (nll ece : ℕ → PyFloat) :
    ∀ (l : List ℕ) (s : ScanState),
      0 ≤ s.C_opt_nll → 0 ≤ s.C_opt_ece → 0 ≤ s.feature_clip →
      0 ≤ (l.foldl (scanStep nll ece) s).C_opt_nll ∧
      0 ≤ (l.foldl (scanStep nll ece) s).C_opt_ece ∧
      0 ≤ (l.foldl (scanStep nll ece) s).feature_clip := by
  intro l
  induction l with
  | nil => exact fun s h1 h2 h3 => ⟨h1, h2, h3⟩
  | cons q t ih =>
    intro s h1 h2 h3
    simp only [List.foldl_cons]
    refine ih (scanStep nll ece s q) ?_ ?_ ?_
    · simp only [scanStep]
      split <;> split <;> first | exact h1 | exact coe_div_hundred_nonneg q
    · simp only [scanStep]
      split <;> split <;> first | exact h2 | exact coe_div_hundred_nonneg q
    · rw [scanStep_feature_clip]
      exact coe_div_hundred_nonneg q

/-! ## First-minimum characterisation -/

/-- Unfolding equation for `minOver`. -/
lemma minOver_succ (e : ℕ → ℚ) (k : ℕ) :
    minOver e (k + 1) = min (minOver e k) (e k) := by
  simp [minOver]

/-- Unfolding equation for `firstArgmin`. -/
lemma firstArgmin_succ (e : ℕ → ℚ) (k : ℕ) :
    firstArgmin e (k + 1) = if e k < minOver e k then k else firstArgmin e k := by
  simp [firstArgmin]

/-- The first-argmin index of a non-empty prefix lies inside the prefix. -/
lemma firstArgmin_lt (e : ℕ → ℚ) : ∀ k : ℕ, firstArgmin e (k + 1) < k + 1 := by
  intro k
  induction k with
  | zero =>
    rw [firstArgmin_succ]
    split <;> simp [firstArgmin]
  | succ j ih =>
    rw [firstArgmin_succ]
    split
    · omega
    · omega

/-- The running minimum of a non-empty prefix is attained at some index
of the prefix. -/
lemma minOver_exists (e : ℕ → ℚ) : ∀ k : ℕ, ∃ j, j < k + 1 ∧ minOver e (k + 1) = e j := by
  intro k
  induction k with
  | zero => exact ⟨0, Nat.one_pos, by simp [minOver]⟩
  | succ j ih =>
    obtain ⟨j0, hj0, hj0e⟩ := ih
    rw [minOver_succ]
    rcases min_cases (minOver e (j + 1)) (e (j + 1)) with ⟨hm, _⟩ | ⟨hm, _⟩
    · exact ⟨j0, by omega, by rw [hm, hj0e]⟩
    · exact ⟨j + 1, by omega, by rw [hm]⟩

/-- If `i0` is the first index of the prefix `0, …, k-1` attaining the
minimum of `e` there, then `firstArgmin` finds exactly `i0` and `minOver`
equals `e i0`. -/
lemma firstArgmin_first (e : ℕ → ℚ) (i0 : ℕ) :
    ∀ k, i0 < k → (∀ j, j < k → e i0 ≤ e j) → (∀ j, j < i0 → e i0 < e j) →
      firstArgmin e k = i0 ∧ minOver e k = e i0 := by
  intro k
  induction k with
  | zero => omega
  | succ j ihk =>
    intro hik hmin hfirst
    rcases Nat.lt_succ_iff_lt_or_eq.mp hik with hlt | heq
    · obtain ⟨hfa, hmo⟩ := ihk hlt (fun l hl => hmin l (Nat.lt_succ_of_lt hl)) hfirst
      have hje : e i0 ≤ e j := hmin j (Nat.lt_succ_self j)
      constructor
      · rw [firstArgmin_succ, hmo, if_neg (not_lt.mpr hje), hfa]
      · rw [minOver_succ, hmo, min_eq_left hje]
    · subst heq
      cases i0 with
      | zero =>
        constructor
        · rw [firstArgmin_succ]
          simp [minOver, firstArgmin]
        · simp [minOver]
      | succ m =>
        obtain ⟨j0, hj0, hj0e⟩ := minOver_exists e m
        have hlt0 : e (m + 1) < minOver e (m + 1) := by
          rw [hj0e]; exact hfirst j0 hj0
        constructor
        · rw [firstArgmin_succ, if_pos hlt0]
        · rw [minOver_succ, min_eq_right hlt0.le]

/-- `minOver` on a one-step prefix. -/
lemma minOver_one (e : ℕ → ℚ) : minOver e 1 = e 0 := by
  rw [show (1 : ℕ) = 0 + 1 from rfl, minOver_succ]
  simp [minOver]

/-- `firstArgmin` on a one-step prefix. -/
lemma firstArgmin_one (e : ℕ → ℚ) : firstArgmin e 1 = 0 := by
  rw [show (1 : ℕ) = 0 + 1 from rfl, firstArgmin_succ]
  split <;> simp [firstArgmin]

/-- An empty scan leaves the accumulators at their initial values. -/
lemma scanLoop_zero (nll ece : ℕ → PyFloat) : scanLoop nll ece 0 = initScanState := by
  rw [scanLoop, List.range_zero, List.foldl_nil]

/-- `pgt` on an infinite running best and a finite candidate. -/
lemma pgt_inf_fin (a : ℚ) : pgt PyFloat.inf (PyFloat.fin a) = true := rfl

/-- `pgt` on two finite values is the strict rational comparison. -/
lemma pgt_fin_fin (a b : ℚ) : pgt (PyFloat.fin a) (PyFloat.fin b) = decide (b < a) := rfl

/-- Main loop invariant: after scanning steps `0, …, k`, the running-best
NLL and ECE hold the minima of the per-step metric traces, and the two
best-threshold trackers hold `firstArgmin/100`, the first scanned
candidate attaining each minimum. -/
lemma scanLoop_spec (nv ev : ℕ → ℚ) :
    ∀ k : ℕ,
      (scanLoop (fun q => PyFloat.fin (nv q)) (fun q => PyFloat.fin (ev q)) (k + 1)).nll_val
          = PyFloat.fin (minOver nv (k + 1)) ∧
      (scanLoop (fun q => PyFloat.fin (nv q)) (fun q => PyFloat.fin (ev q)) (k + 1)).C_opt_nll
          = some ((firstArgmin nv (k + 1) : ℚ) / 100) ∧
      (scanLoop (fun q => PyFloat.fin (nv q)) (fun q => PyFloat.fin (ev q)) (k + 1)).ece_val
          = PyFloat.fin (minOver ev (k + 1)) ∧
      (scanLoop (fun q => PyFloat.fin (nv q)) (fun q => PyFloat.fin (ev q)) (k + 1)).C_opt_ece
          = some ((firstArgmin ev (k + 1) : ℚ) / 100) := by
  intro k
  induction k with
  | zero =>
    rw [scanLoop_succ, scanLoop_zero]
    simp [scanStep, initScanState, pgt_inf_fin, minOver_one, firstArgmin_one]
  | succ j ih =>
    obtain ⟨h1, h2, h3, h4⟩ := ih
    rw [scanLoop_succ,
      minOver_succ nv (j + 1), minOver_succ ev (j + 1),
      firstArgmin_succ nv (j + 1), firstArgmin_succ ev (j + 1)]
    by_cases hn : nv (j + 1) < minOver nv (j + 1) <;>
      by_cases he : ev (j + 1) < minOver ev (j + 1)
    · simp [scanStep, h1, h2, h3, h4, pgt_fin_fin, hn, he,
        min_eq_right hn.le, min_eq_right he.le]
    · simp [scanStep, h1, h2, h3, h4, pgt_fin_fin, hn, he,
        min_eq_right hn.le, min_eq_left (not_lt.mp he)]
    · simp [scanStep, h1, h2, h3, h4, pgt_fin_fin, hn, he,
        min_eq_left (not_lt.mp hn), min_eq_right he.le]
    · simp [scanStep, h1, h2, h3, h4, pgt_fin_fin, hn, he,
        min_eq_left (not_lt.mp hn), min_eq_left (not_lt.mp he)]

/-- With finite metric traces and a first-minimum index `i0` of the
criterion's trace, the selected threshold is `i0/100`. -/
lemma scanSelect_first_min (cv : String) (steps i0 : ℕ) (nv ev mv : ℕ → ℚ)
    (hcv : (cv = "ece" ∧ mv = ev) ∨ (cv = "nll" ∧ mv = nv))
    (hik : i0 < steps)
    (hmin : ∀ j, j < steps → mv i0 ≤ mv j)
    (hfirst : ∀ j, j < i0 → mv i0 < mv j) :
    scanSelect cv (fun q => PyFloat.fin (nv q)) (fun q => PyFloat.fin (ev q)) steps
      = some ((i0 : ℚ) / 100) := by
  obtain ⟨k, rfl⟩ : ∃ k, steps = k + 1 := ⟨steps - 1, by omega⟩
  obtain ⟨_, h2, _, h4⟩ := scanLoop_spec nv ev k
  rcases hcv with ⟨hcv, rfl⟩ | ⟨hcv, rfl⟩
  · subst hcv
    obtain ⟨hfa, _⟩ := firstArgmin_first mv i0 (k + 1) hik hmin hfirst
    simp only [scanSelect, if_pos rfl]
    rw [h4, hfa]
    simp
  · subst hcv
    obtain ⟨hfa, _⟩ := firstArgmin_first mv i0 (k + 1) hik hmin hfirst
    simp only [scanSelect, if_neg (by decide : ¬("nll" = "ece")), if_pos rfl]
    rw [h2, hfa]
    simp

/-- C1: the running bests are updated only under strict `<`, so for every
sequence of per-step metric values the fitted threshold is the first
(smallest) scanned candidate attaining the minimum of the criterion's
metric trace; in particular ECE ties go to the smaller threshold. -/
theorem set_feature_clip_first_scanned_min :
    (∀ (c : FeatureClippingCalibrator) (nv ev mv : ℕ → ℚ) (i0 : ℕ),
        ((c.cross_validate = "ece" ∧ mv = ev) ∨ (c.cross_validate = "nll" ∧ mv = nv)) →
        i0 < 2000 →
        (∀ j, j < 2000 → mv i0 ≤ mv j) →
        (∀ j, j < i0 → mv i0 < mv j) →
        (c.set_feature_clip (fun q => PyFloat.fin (nv q))
            (fun q => PyFloat.fin (ev q))).feature_clip = some ((i0 : ℚ) / 100)) ∧
    (∀ (c : FeatureClippingCalibrator2) (nv ev mv : ℕ → ℚ) (i0 : ℕ),
        ((c.cross_validate = "ece" ∧ mv = ev) ∨ (c.cross_validate = "nll" ∧ mv = nv)) →
        i0 < 4000 →
        (∀ j, j < 4000 → mv i0 ≤ mv j) →
        (∀ j, j < i0 → mv i0 < mv j) →
        (c.set_feature_clip (fun q => PyFloat.fin (nv q))
            (fun q => PyFloat.fin (ev q))).feature_clip = some ((i0 : ℚ) / 100)) := by
  constructor
  · intro c nv ev mv i0 hcv hik hmin hfirst
    exact scanSelect_first_min c.cross_validate 2000 i0 nv ev mv hcv hik hmin hfirst
  · intro c nv ev mv i0 hcv hik hmin hfirst
    exact scanSelect_first_min c.cross_validate 4000 i0 nv ev mv hcv hik hmin hfirst

/-- Witness for C1: the ECE trace `2, 1, 1, 1, …` has its minimum first
attained at step 1, and both calibrators fit the threshold `1/100`. -/
theorem set_feature_clip_first_scanned_min_witness :
    ((FeatureClippingCalibrator.init (fun x => x) "ece").set_feature_clip
        (fun _ => PyFloat.fin 0)
        (fun q => PyFloat.fin (if q = 0 then 2 else 1))).feature_clip = some ((1 : ℚ) / 100) ∧
    ((FeatureClippingCalibrator2.init "ece").set_feature_clip
        (fun _ => PyFloat.fin 0)
        (fun q => PyFloat.fin (if q = 0 then 2 else 1))).feature_clip = some ((1 : ℚ) / 100) :=
  ⟨set_feature_clip_first_scanned_min.1 (FeatureClippingCalibrator.init (fun x => x) "ece")
      (fun _ => 0) (fun q => if q = 0 then 2 else 1) (fun q => if q = 0 then 2 else 1) 1
      (Or.inl ⟨rfl, rfl⟩) (by omega)
      (by intro j hj; by_cases h : j = 0 <;> norm_num [h])
      (by intro j hj; interval_cases j; norm_num),
   set_feature_clip_first_scanned_min.2 (FeatureClippingCalibrator2.init "ece")
      (fun _ => 0) (fun q => if q = 0 then 2 else 1) (fun q => if q = 0 then 2 else 1) 1
      (Or.inl ⟨rfl, rfl⟩) (by omega)
      (by intro j hj; by_cases h : j = 0 <;> norm_num [h])
      (by intro j hj; interval_cases j; norm_num)⟩

/-- With finite metric traces, a non-empty scan always selects one of the
scanned candidates `q/100`, whatever the criterion string is. -/
lemma scanSelect_mem_candidates (cv : String) (nv ev : ℕ → ℚ) (steps : ℕ)
    (hs : 0 < steps) :
    ∃ q, q < steps ∧
      scanSelect cv (fun i => PyFloat.fin (nv i)) (fun i => PyFloat.fin (ev i)) steps
        = some ((q : ℚ) / 100) := by
  obtain ⟨k, rfl⟩ : ∃ k, steps = k + 1 := ⟨steps - 1, by omega⟩
  obtain ⟨_, h2, _, h4⟩ := scanLoop_spec nv ev k
  simp only [scanSelect]
  by_cases hece : cv = "ece"
  · exact ⟨firstArgmin ev (k + 1), firstArgmin_lt ev k, by rw [if_pos hece, h4]⟩
  · by_cases hnll : cv = "nll"
    · exact ⟨firstArgmin nv (k + 1), firstArgmin_lt nv k,
        by rw [if_neg hece, if_pos hnll, h2]⟩
    · exact ⟨k, Nat.lt_succ_self k,
        by rw [if_neg hece, if_neg hnll, scanLoop_feature_clip]⟩

/-- C2: each scanned candidate is `q/100`, and when every scanned step
produces a finite metric value the fitted threshold is one of the
explicitly scanned candidates, never an interpolated value. -/
theorem threshold_is_scanned_candidate :
    (∀ (nll ece : ℕ → PyFloat) (s : ScanState) (q : ℕ),
        (scanStep nll ece s q).feature_clip = some ((q : ℚ) / 100)) ∧
    (∀ (c : FeatureClippingCalibrator) (nv ev : ℕ → ℚ),
        ∃ q : ℕ, q < 2000 ∧
          (c.set_feature_clip (fun i => PyFloat.fin (nv i))
              (fun i => PyFloat.fin (ev i))).feature_clip = some ((q : ℚ) / 100)) ∧
    (∀ (c : FeatureClippingCalibrator2) (nv ev : ℕ → ℚ),
        ∃ q : ℕ, q < 4000 ∧
          (c.set_feature_clip (fun i => PyFloat.fin (nv i))
              (fun i => PyFloat.fin (ev i))).feature_clip = some ((q : ℚ) / 100)) := by
  refine ⟨scanStep_feature_clip, fun c nv ev => ?_, fun c nv ev => ?_⟩
  · exact scanSelect_mem_candidates c.cross_validate nv ev 2000 (by omega)
  · exact scanSelect_mem_candidates c.cross_validate nv ev 4000 (by omega)

/-- The chosen threshold is non-negative for every criterion string. -/
lemma scanSelect_nonneg (cv : String) (nll ece : ℕ → PyFloat) (steps : ℕ) :
    (0 : WithTop ℚ) ≤ scanSelect cv nll ece steps := by
  obtain ⟨g1, g2, g3⟩ :=
    scanFold_nonneg nll ece (List.range steps) initScanState le_top le_top le_top
  simp only [scanSelect, scanLoop]
  by_cases hece : cv = "ece"
  · rw [if_pos hece]; exact g2
  · by_cases hnll : cv = "nll"
    · rw [if_neg hece, if_pos hnll]; exact g1
    · rw [if_neg hece, if_neg hnll]; exact g3

/-- C9: the clip threshold equals `float("inf")` right after
construction, every intermediate in-loop assignment is a non-negative
candidate, and the value after `set_feature_clip` is non-negative. -/
theorem feature_clip_always_nonneg :
    (∀ (mc : List ℚ → List ℚ) (cv : String),
        (FeatureClippingCalibrator.init mc cv).feature_clip = ⊤) ∧
    (∀ cv : String, (FeatureClippingCalibrator2.init cv).feature_clip = ⊤) ∧
    (0 : WithTop ℚ) ≤ initScanState.feature_clip ∧
    (∀ (nll ece : ℕ → PyFloat) (s : ScanState) (q : ℕ),
        (0 : WithTop ℚ) ≤ (scanStep nll ece s q).feature_clip) ∧
    (∀ (c : FeatureClippingCalibrator) (nll ece : ℕ → PyFloat),
        (0 : WithTop ℚ) ≤ (c.set_feature_clip nll ece).feature_clip) ∧
    (∀ (c : FeatureClippingCalibrator2) (nll ece : ℕ → PyFloat),
        (0 : WithTop ℚ) ≤ (c.set_feature_clip nll ece).feature_clip) := by
  refine ⟨fun _ _ => rfl, fun _ => rfl, le_top, fun nll ece s q => ?_,
    fun c nll ece => ?_, fun c nll ece => ?_⟩
  · rw [scanStep_feature_clip]; exact coe_div_hundred_nonneg q
  · exact scanSelect_nonneg c.cross_validate nll ece 2000
  · exact scanSelect_nonneg c.cross_validate nll ece 4000

/-- C10: with a criterion string other than `'ece'` and `'nll'`, neither
branch of the final selection fires and the threshold stays at the last
scanned candidate: `1999/100` for the feature-space calibrator and
`3999/100` for the logit-space one. -/
theorem invalid_criterion_keeps_last_candidate (c : FeatureClippingCalibrator)
    (c2 : FeatureClippingCalibrator2) (nll ece : ℕ → PyFloat)
    (h1 : c.cross_validate ≠ "ece") (h2 : c.cross_validate ≠ "nll")
    (h3 : c2.cross_validate ≠ "ece") (h4 : c2.cross_validate ≠ "nll") :
    (c.set_feature_clip nll ece).feature_clip = some ((1999 : ℚ) / 100) ∧
    (c2.set_feature_clip nll ece).feature_clip = some ((3999 : ℚ) / 100) := by
  constructor
  · have h := scanLoop_feature_clip nll ece 1999
    norm_num at h
    simp [FeatureClippingCalibrator.set_feature_clip, scanSelect, h1, h2, h]
  · have h := scanLoop_feature_clip nll ece 3999
    norm_num at h
    simp [FeatureClippingCalibrator2.set_feature_clip, scanSelect, h3, h4, h]

/-- Witness for C10 at the criterion string `"accuracy"` and constantly
NaN metrics. -/
theorem invalid_criterion_keeps_last_candidate_witness :
    ((FeatureClippingCalibrator.init (fun x => x) "accuracy").set_feature_clip
        (fun _ => PyFloat.nan) (fun _ => PyFloat.nan)).feature_clip
      = some ((1999 : ℚ) / 100) ∧
    ((FeatureClippingCalibrator2.init "accuracy").set_feature_clip
        (fun _ => PyFloat.nan) (fun _ => PyFloat.nan)).feature_clip
      = some ((3999 : ℚ) / 100) :=
  invalid_criterion_keeps_last_candidate
    (FeatureClippingCalibrator.init (fun x => x) "accuracy")
    (FeatureClippingCalibrator2.init "accuracy")
    (fun _ => PyFloat.nan) (fun _ => PyFloat.nan)
    (by decide) (by decide) (by decide) (by decide)

/-- When every metric evaluation yields NaN (as the mean-reduced losses
do on an empty batch), no comparison fires and, for criterion `'ece'` or
`'nll'`, the selection returns the untouched initial `float("inf")`. -/
lemma scanSelect_nan (cv : String) (nll ece : ℕ → PyFloat)
    (hn : ∀ q, nll q = PyFloat.nan) (he : ∀ q, ece q = PyFloat.nan)
    (hcv : cv = "ece" ∨ cv = "nll") (steps : ℕ) :
    scanSelect cv nll ece steps = ⊤ := by
  obtain ⟨g1, g2⟩ := scanFold_nan nll ece hn he (List.range steps) initScanState
  simp only [scanSelect, scanLoop]
  rcases hcv with rfl | rfl
  · rw [if_pos rfl]
    exact g2.trans rfl
  · rw [if_neg (by decide : ¬("nll" = "ece")), if_pos rfl]
    exact g1.trans rfl

/-- C7 counterexample: on NaN metrics (the empty-validation-set trace)
`set_feature_clip` raises nothing and silently returns with the
threshold still at `float("inf")` — there is no insufficient-data
check anywhere in the method. -/
theorem empty_metrics_silently_keep_inf :
    ((FeatureClippingCalibrator.init (fun x => x) "ece").set_feature_clip
        (fun _ => PyFloat.nan) (fun _ => PyFloat.nan)).feature_clip = ⊤ := by
  simp only [FeatureClippingCalibrator.set_feature_clip, FeatureClippingCalibrator.init]
  exact scanSelect_nan "ece" (fun _ => PyFloat.nan) (fun _ => PyFloat.nan)
    (fun _ => rfl) (fun _ => rfl) (Or.inl rfl) 2000

/-- C7 amended: with an all-NaN metric trace and a valid criterion, both
calibrators complete normally and keep the pre-fit threshold
`float("inf")`; no error of any kind is produced. -/
theorem empty_metrics_no_error (c : FeatureClippingCalibrator)
    (c2 : FeatureClippingCalibrator2) (nll ece : ℕ → PyFloat)
    (hn : ∀ q, nll q = PyFloat.nan) (he : ∀ q, ece q = PyFloat.nan)
    (hc : c.cross_validate = "ece" ∨ c.cross_validate = "nll")
    (hc2 : c2.cross_validate = "ece" ∨ c2.cross_validate = "nll") :
    (c.set_feature_clip nll ece).feature_clip = ⊤ ∧
    (c2.set_feature_clip nll ece).feature_clip = ⊤ :=
  ⟨scanSelect_nan c.cross_validate nll ece hn he hc 2000,
   scanSelect_nan c2.cross_validate nll ece hn he hc2 4000⟩

/-- Witness for the amended C7 at criterion `'nll'`. -/
theorem empty_metrics_no_error_witness :
    ((FeatureClippingCalibrator.init (fun x => x) "nll").set_feature_clip
        (fun _ => PyFloat.nan) (fun _ => PyFloat.nan)).feature_clip = ⊤ ∧
    ((FeatureClippingCalibrator2.init "nll").set_feature_clip
        (fun _ => PyFloat.nan) (fun _ => PyFloat.nan)).feature_clip = ⊤ :=
  empty_metrics_no_error (FeatureClippingCalibrator.init (fun x => x) "nll")
    (FeatureClippingCalibrator2.init "nll")
    (fun _ => PyFloat.nan) (fun _ => PyFloat.nan)
    (fun _ => rfl) (fun _ => rfl) (Or.inr rfl) (Or.inr rfl)

set_option maxRecDepth 8000 in
/-- C6 counterexample: variant A with both metrics finite and equal to
`10 ** 7` at the single candidate: the strict comparison against the
initial `10 ** 7` fails, no best is recorded, and the fitted threshold
is `float("inf")`, not `0.01`. -/
theorem variantA_large_finite_metric_keeps_inf :
    (ModelWithFeatureClipping.init.set_feature_clip "nll"
        (fun _ => PyFloat.fin (10 ^ 7)) (fun _ => PyFloat.fin (10 ^ 7))).feature_clip = ⊤ ∧
    (⊤ : WithTop ℚ) ≠ some ((1 : ℚ) / 100) := by
  constructor
  · decide
  · decide

/-- C6 amended: whenever both metric values at the single scanned
candidate `0.01` are finite and strictly below the initial sentinel
`10 ** 7`, variant A fits the threshold `0.01 = 1/100` for every
criterion string. -/
theorem variantA_fits_the_single_candidate (cv : String) (m : ModelWithFeatureClipping)
    (nllA eceA : ℚ → PyFloat) (a b : ℚ)
    (hn : nllA (1 / 100) = PyFloat.fin a) (ha : a < 10 ^ 7)
    (he : eceA (1 / 100) = PyFloat.fin b) (hb : b < 10 ^ 7) :
    (m.set_feature_clip cv nllA eceA).feature_clip = some ((1 : ℚ) / 100) := by
  have hr : List.range 1 = [0] := by decide
  simp only [ModelWithFeatureClipping.set_feature_clip, hr, List.foldl_cons,
    List.foldl_nil, modelScanStep, ModelWithFeatureClipping.initScan]
  simp only [hn, he, pgt_fin_fin, decide_eq_true_eq]
  rw [if_pos ha]
  simp [pgt_fin_fin, ha, hb]

/-- Witness for the amended C6 with metrics constantly `1` and an invalid
criterion string. -/
theorem variantA_fits_the_single_candidate_witness :
    (ModelWithFeatureClipping.init.set_feature_clip "x"
        (fun _ => PyFloat.fin 1) (fun _ => PyFloat.fin 1)).feature_clip
      = some ((1 : ℚ) / 100) :=
  variantA_fits_the_single_candidate "x" ModelWithFeatureClipping.init
    (fun _ => PyFloat.fin 1) (fun _ => PyFloat.fin 1) 1 1 rfl (by norm_num) rfl (by norm_num)
